import Mathlib

/-!
# RoTrust chaincode: shallow embedding and verification

This file embeds the three Hyperledger Fabric chaincode contracts of the
RoTrust repository — `PropertyContract`, `TransactionContract` and
`EscrowContract` (src/blockchain/chaincode/escrow_contract.js and the two
contract files shipped alongside it) — as pure Lean functions over an
explicit ledger state, and proves the specified properties of the
escrow/transfer state machine.

Modelling decisions, all taken from the JavaScript source:

* The Fabric world state is a key/value store (`getState`/`putState`).
  It is embedded as an association list `Ledger` of `String` keys to
  `LedgerValue`s; `getState` returns the first binding of a key and
  `putState` replaces the binding in place (or appends a fresh one),
  mirroring the store's one-value-per-key semantics.
* The JS ledger stores untyped JSON blobs.  The three record shapes
  (property / transaction / escrow) are disjoint, and every contract
  function immediately reads fields specific to one shape, so the
  embedding tags ledger values with their shape (`LedgerValue`) and
  reports a `typeMismatch` error where the JS code would operate on a
  foreign-shaped record.  All verified properties concern well-shaped
  records, where the two semantics agree.
* Each contract function throws `Error(...)` with a message; the spec's
  error taxonomy classifies those messages, and the embedding uses the
  taxonomy's constructors (`ChainErr`) for the corresponding throw sites.
* A chaincode invocation either commits its writes or aborts.  To make
  the atomicity property provable rather than definitional, operations
  return an `EResult` whose error constructor carries the ledger as of
  the throw site — if a `putState` had executed before a throw, the
  carried ledger would differ from the input one.
* `price` and `amount` go through JS `parseFloat` and are summed with
  `+`; the embedding abstracts them as exact rationals (`ℚ`).  Wall-clock
  timestamps (`new Date().toISOString()`) are an environmental input and
  are threaded as an explicit `now : String` argument.
* JSON payloads that the contracts merely parse and store (`details`,
  `paymentDetails`, document metadata, verification details,
  transaction-transfer details) are kept as opaque strings; the
  `details` object of a Property, which `UpdateProperty` spread-merges,
  is modelled as a string-keyed object (association list) with a
  replace-or-append merge.
-/

/-- A JSON object with string values, as used for `Property.details`.
`setKey` mirrors JS object-key assignment: replace the existing binding
in place, else append. -/
def setKey {α : Type} : List (String × α) → String → α → List (String × α)
  | [], k, v => [(k, v)]
  | (k', v') :: rest, k, v =>
      if k = k' then (k, v) :: rest else (k', v') :: setKey rest k v

/-- JS `key in obj`. -/
def hasKey {α : Type} : List (String × α) → String → Bool
  | [], _ => false
  | (k', _) :: rest, k => k = k' || hasKey rest k

/-- JS `obj[key]` (as an option). -/
def getKey {α : Type} : List (String × α) → String → Option α
  | [], _ => none
  | (k', v') :: rest, k => if k = k' then some v' else getKey rest k

/-- JS spread merge `{...old, ...new}`: every binding of `new` overrides
or extends `old`. -/
def mergeObj (old new : List (String × String)) : List (String × String) :=
  new.foldl (fun acc kv => setKey acc kv.1 kv.2) old

/-- One entry of `Property.history`.  The three writers
(`TransferProperty`, `CompleteEscrow`, `CompleteTransaction`) each build
a record with a slightly different field set; fields absent from a
writer's record are `none`. -/
structure HistoryEntry where
  type : String
  transactionId : Option String
  escrowId : Option String
  fromOwnerId : String
  toOwnerId : String
  price : Option ℚ
  paymentMethod : Option String
  details : Option String
  timestamp : String
deriving DecidableEq

/-- A property record, as built by `PropertyContract.RegisterProperty`. -/
structure Property where
  propertyId : String
  address : String
  ownerId : String
  details : List (String × String)
  status : String
  history : List HistoryEntry
  createdAt : String
  updatedAt : String
deriving DecidableEq

/-- A transaction record, as built by
`TransactionContract.CreateTransaction`. -/
structure Transaction where
  transactionId : String
  propertyId : String
  sellerId : String
  buyerId : String
  price : ℚ
  paymentMethod : String
  notes : String
  status : String
  cancellationReason : Option String
  createdAt : String
  updatedAt : String
deriving DecidableEq

/-- One payment appended by `EscrowContract.AddPayment`. -/
structure Payment where
  paymentId : String
  amount : ℚ
  paymentMethod : String
  details : String
  timestamp : String
deriving DecidableEq

/-- One document appended by `EscrowContract.AddDocument`. -/
structure Document where
  documentId : String
  documentType : String
  documentHash : String
  metadata : String
  timestamp : String
deriving DecidableEq

/-- One verification record appended by `EscrowContract.MarkConditionMet`. -/
structure Verification where
  conditionId : String
  verifierId : String
  details : String
  timestamp : String
deriving DecidableEq

/-- A declared escrow condition.  The contract source only ever reads the
`id` field of the parsed condition objects. -/
structure Condition where
  id : String
deriving DecidableEq

/-- An escrow record, as built by `EscrowContract.CreateEscrow`.  The
`verifications` array does not exist on the JS object until the first
`MarkConditionMet` creates it, hence the `Option`. -/
structure Escrow where
  escrowId : String
  transactionId : String
  propertyId : String
  sellerId : String
  buyerId : String
  price : ℚ
  conditions : List Condition
  status : String
  payments : List Payment
  documents : List Document
  conditions_met : List (String × Bool)
  verifications : Option (List Verification)
  cancellationReason : Option String
  createdAt : String
  updatedAt : String
deriving DecidableEq

/-- A world-state value, tagged by the record shape it parses as. -/
inductive LedgerValue where
  | prop (p : Property)
  | txn (t : Transaction)
  | escrow (e : Escrow)
deriving DecidableEq

/-- The Fabric world state: an association list from keys to records. -/
abbrev Ledger : Type := List (String × LedgerValue)

/-- `ctx.stub.getState(key)`: the current binding of `key`, if any. -/
def getState : Ledger → String → Option LedgerValue
  | [], _ => none
  | (k, v) :: rest, key => if key = k then some v else getState rest key

/-- `ctx.stub.putState(key, value)`: bind `key` to `value`, replacing any
existing binding. -/
def putState : Ledger → String → LedgerValue → Ledger
  | [], key, v => [(key, v)]
  | (k, w) :: rest, key, v =>
      if key = k then (key, v) :: rest else (k, w) :: putState rest key v

/-- The spec's error taxonomy, classifying the `throw new Error(...)`
sites of the contracts. -/
inductive ChainErr where
  | notFound (id : String)
  | invalidState (status : String)
  | ownershipMismatch (propertyId : String) (claimedOwner : String)
  | unknownCondition (conditionId : String) (escrowId : String)
  | typeMismatch (id : String)
  | validation (msg : String)
deriving DecidableEq

/-- Outcome of one chaincode invocation.  `err` carries the world state
as of the throw site, so that atomicity ("a failing invocation persists
nothing") is a provable property of the translation rather than a
consequence of the result type. -/
inductive EResult where
  | ok (L : Ledger)
  | err (e : ChainErr) (L : Ledger)
deriving DecidableEq

/-- `escrow.payments.reduce((sum, p) => sum + p.amount, 0)`. -/
def totalPaid (payments : List Payment) : ℚ :=
  payments.foldl (fun sum p => sum + p.amount) 0

/-- `PropertyContract.RegisterProperty(ctx, propertyId, address, ownerId,
details)`: builds a fresh property record with `status: 'active'` and an
empty `history`, and writes it.  The source performs no existence check
on `propertyId`. -/
def RegisterProperty (L : Ledger) (propertyId address ownerId : String)
    (details : List (String × String)) (now : String) : EResult :=
  let property : Property :=
    { propertyId := propertyId
      address := address
      ownerId := ownerId
      details := details
      status := "active"
      history := []
      createdAt := now
      updatedAt := now }
  .ok (putState L propertyId (.prop property))

/-- `PropertyContract.UpdateProperty(ctx, propertyId, newDetails)`. -/
def UpdateProperty (L : Ledger) (propertyId : String)
    (newDetails : List (String × String)) (now : String) : EResult :=
  match getState L propertyId with
  | none => .err (.notFound propertyId) L
  | some (.prop property) =>
      let property :=
        { property with
            details := mergeObj property.details newDetails
            updatedAt := now }
      .ok (putState L propertyId (.prop property))
  | some _ => .err (.typeMismatch propertyId) L

/-- `PropertyContract.TransferProperty(ctx, propertyId, currentOwnerId,
newOwnerId, transactionDetails)`. -/
def TransferProperty (L : Ledger)
    (propertyId currentOwnerId newOwnerId transactionDetails now : String) :
    EResult :=
  match getState L propertyId with
  | none => .err (.notFound propertyId) L
  | some (.prop property) =>
      if property.ownerId = currentOwnerId then
        let transaction : HistoryEntry :=
          { type := "transfer"
            transactionId := none
            escrowId := none
            fromOwnerId := currentOwnerId
            toOwnerId := newOwnerId
            price := none
            paymentMethod := none
            details := some transactionDetails
            timestamp := now }
        let property :=
          { property with
              history := property.history ++ [transaction]
              ownerId := newOwnerId
              updatedAt := now }
        .ok (putState L propertyId (.prop property))
      else
        .err (.ownershipMismatch propertyId currentOwnerId) L
  | some _ => .err (.typeMismatch propertyId) L

/-- `TransactionContract.CreateTransaction(ctx, transactionId, propertyId,
sellerId, buyerId, price, paymentMethod, notes)`. -/
def CreateTransaction (L : Ledger)
    (transactionId propertyId sellerId buyerId : String) (price : ℚ)
    (paymentMethod notes now : String) : EResult :=
  match getState L propertyId with
  | none => .err (.notFound propertyId) L
  | some (.prop property) =>
      if property.ownerId = sellerId then
        let transaction : Transaction :=
          { transactionId := transactionId
            propertyId := propertyId
            sellerId := sellerId
            buyerId := buyerId
            price := price
            paymentMethod := paymentMethod
            notes := notes
            status := "pending"
            cancellationReason := none
            createdAt := now
            updatedAt := now }
        .ok (putState L transactionId (.txn transaction))
      else
        .err (.ownershipMismatch propertyId sellerId) L
  | some _ => .err (.typeMismatch propertyId) L

/-- `TransactionContract.CompleteTransaction(ctx, transactionId)`:
pending-status check, re-read of the property, ownership re-check, then
the history append / owner flip / status flip, written together. -/
def CompleteTransaction (L : Ledger) (transactionId now : String) : EResult :=
  match getState L transactionId with
  | none => .err (.notFound transactionId) L
  | some (.txn transaction) =>
      if transaction.status = "pending" then
        match getState L transaction.propertyId with
        | none => .err (.notFound transaction.propertyId) L
        | some (.prop property) =>
            if property.ownerId = transaction.sellerId then
              let transferRecord : HistoryEntry :=
                { type := "transfer"
                  transactionId := some transaction.transactionId
                  escrowId := none
                  fromOwnerId := transaction.sellerId
                  toOwnerId := transaction.buyerId
                  price := some transaction.price
                  paymentMethod := some transaction.paymentMethod
                  details := none
                  timestamp := now }
              let property :=
                { property with
                    history := property.history ++ [transferRecord]
                    ownerId := transaction.buyerId
                    updatedAt := now }
              let transaction' :=
                { transaction with status := "completed", updatedAt := now }
              let L1 := putState L transaction.propertyId (.prop property)
              .ok (putState L1 transactionId (.txn transaction'))
            else
              .err (.ownershipMismatch transaction.propertyId
                      transaction.sellerId) L
        | some _ => .err (.typeMismatch transaction.propertyId) L
      else
        .err (.invalidState transaction.status) L
  | some _ => .err (.typeMismatch transactionId) L

/-- `TransactionContract.CancelTransaction(ctx, transactionId, reason)`. -/
def CancelTransaction (L : Ledger) (transactionId reason now : String) :
    EResult :=
  match getState L transactionId with
  | none => .err (.notFound transactionId) L
  | some (.txn transaction) =>
      if transaction.status = "pending" then
        let transaction' :=
          { transaction with
              status := "cancelled"
              cancellationReason :=
                some (if reason = "" then "No reason provided" else reason)
              updatedAt := now }
        .ok (putState L transactionId (.txn transaction'))
      else
        .err (.invalidState transaction.status) L
  | some _ => .err (.typeMismatch transactionId) L

/-- `EscrowContract.CreateEscrow(ctx, escrowId, transactionId, propertyId,
sellerId, buyerId, price, conditions)`: existence check on the
transaction (any record suffices — the source only checks for non-empty
bytes), existence and ownership check on the property, then a fresh
escrow with `status: 'created'` and `conditions_met` initialised to
`false` for every declared condition id. -/
def CreateEscrow (L : Ledger)
    (escrowId transactionId propertyId sellerId buyerId : String)
    (price : ℚ) (conditions : List Condition) (now : String) : EResult :=
  match getState L transactionId with
  | none => .err (.notFound transactionId) L
  | some _ =>
      match getState L propertyId with
      | none => .err (.notFound propertyId) L
      | some (.prop property) =>
          if property.ownerId = sellerId then
            let escrow : Escrow :=
              { escrowId := escrowId
                transactionId := transactionId
                propertyId := propertyId
                sellerId := sellerId
                buyerId := buyerId
                price := price
                conditions := conditions
                status := "created"
                payments := []
                documents := []
                conditions_met :=
                  conditions.foldl (fun m c => setKey m c.id false) []
                verifications := none
                cancellationReason := none
                createdAt := now
                updatedAt := now }
            .ok (putState L escrowId (.escrow escrow))
          else
            .err (.ownershipMismatch propertyId sellerId) L
      | some _ => .err (.typeMismatch propertyId) L

/-- `EscrowContract.AddPayment(ctx, escrowId, paymentId, amount,
paymentMethod, paymentDetails)`: state check, append the payment,
recompute the running total, and advance `created → in_progress` when
the total is positive. -/
def AddPayment (L : Ledger) (escrowId paymentId : String) (amount : ℚ)
    (paymentMethod paymentDetails now : String) : EResult :=
  match getState L escrowId with
  | none => .err (.notFound escrowId) L
  | some (.escrow escrow) =>
      if escrow.status = "created" ∨ escrow.status = "in_progress" then
        let payment : Payment :=
          { paymentId := paymentId
            amount := amount
            paymentMethod := paymentMethod
            details := paymentDetails
            timestamp := now }
        let escrow := { escrow with payments := escrow.payments ++ [payment] }
        let total := totalPaid escrow.payments
        let escrow :=
          if escrow.status = "created" ∧ 0 < total then
            { escrow with status := "in_progress" }
          else escrow
        let escrow := { escrow with updatedAt := now }
        .ok (putState L escrowId (.escrow escrow))
      else
        .err (.invalidState escrow.status) L
  | some _ => .err (.typeMismatch escrowId) L

/-- `EscrowContract.AddDocument(ctx, escrowId, documentId, documentType,
documentHash, documentMetadata)`. -/
def AddDocument (L : Ledger)
    (escrowId documentId documentType documentHash documentMetadata
      now : String) : EResult :=
  match getState L escrowId with
  | none => .err (.notFound escrowId) L
  | some (.escrow escrow) =>
      if escrow.status = "created" ∨ escrow.status = "in_progress" then
        let document : Document :=
          { documentId := documentId
            documentType := documentType
            documentHash := documentHash
            metadata := documentMetadata
            timestamp := now }
        let escrow :=
          { escrow with
              documents := escrow.documents ++ [document]
              updatedAt := now }
        .ok (putState L escrowId (.escrow escrow))
      else
        .err (.invalidState escrow.status) L
  | some _ => .err (.typeMismatch escrowId) L

/-- `EscrowContract.MarkConditionMet(ctx, escrowId, conditionId,
verifierId, verificationDetails)`: state check, declared-condition
check, set the flag, append a verification record (creating the array on
first use), and advance to `ready_for_completion` exactly when every
declared condition is met and `Math.abs(totalPaid - price) < 0.01`. -/
def MarkConditionMet (L : Ledger)
    (escrowId conditionId verifierId verificationDetails now : String) :
    EResult :=
  match getState L escrowId with
  | none => .err (.notFound escrowId) L
  | some (.escrow escrow) =>
      if escrow.status = "created" ∨ escrow.status = "in_progress" then
        if hasKey escrow.conditions_met conditionId then
          let escrow :=
            { escrow with
                conditions_met :=
                  setKey escrow.conditions_met conditionId true }
          let verification : Verification :=
            { conditionId := conditionId
              verifierId := verifierId
              details := verificationDetails
              timestamp := now }
          let escrow :=
            { escrow with
                verifications :=
                  some (escrow.verifications.getD [] ++ [verification]) }
          let allConditionsMet := escrow.conditions_met.all (fun kv => kv.2)
          let total := totalPaid escrow.payments
          let escrow :=
            if allConditionsMet ∧ |total - escrow.price| < 1 / 100 then
              { escrow with status := "ready_for_completion" }
            else escrow
          let escrow := { escrow with updatedAt := now }
          .ok (putState L escrowId (.escrow escrow))
        else
          .err (.unknownCondition conditionId escrowId) L
      else
        .err (.invalidState escrow.status) L
  | some _ => .err (.typeMismatch escrowId) L

/-- `EscrowContract.CompleteEscrow(ctx, escrowId)`: readiness check,
re-read of the property, ownership re-check, existence check on the
transaction, then the three-way update — history append and owner flip
on the property, `completed` on the transaction, `completed` on the
escrow — written together at the end. -/
def CompleteEscrow (L : Ledger) (escrowId now : String) : EResult :=
  match getState L escrowId with
  | none => .err (.notFound escrowId) L
  | some (.escrow escrow) =>
      if escrow.status = "ready_for_completion" then
        match getState L escrow.propertyId with
        | none => .err (.notFound escrow.propertyId) L
        | some (.prop property) =>
            if property.ownerId = escrow.sellerId then
              match getState L escrow.transactionId with
              | none => .err (.notFound escrow.transactionId) L
              | some (.txn transaction) =>
                  let transferRecord : HistoryEntry :=
                    { type := "transfer"
                      transactionId := some escrow.transactionId
                      escrowId := some escrow.escrowId
                      fromOwnerId := escrow.sellerId
                      toOwnerId := escrow.buyerId
                      price := some escrow.price
                      paymentMethod := none
                      details := none
                      timestamp := now }
                  let property :=
                    { property with
                        history := property.history ++ [transferRecord]
                        ownerId := escrow.buyerId
                        updatedAt := now }
                  let transaction :=
                    { transaction with status := "completed", updatedAt := now }
                  let escrow' :=
                    { escrow with status := "completed", updatedAt := now }
                  let L1 := putState L escrow.propertyId (.prop property)
                  let L2 := putState L1 escrow.transactionId (.txn transaction)
                  .ok (putState L2 escrowId (.escrow escrow'))
              | some _ => .err (.typeMismatch escrow.transactionId) L
            else
              .err (.ownershipMismatch escrow.propertyId escrow.sellerId) L
        | some _ => .err (.typeMismatch escrow.propertyId) L
      else
        .err (.invalidState escrow.status) L
  | some _ => .err (.typeMismatch escrowId) L

/-- `EscrowContract.CancelEscrow(ctx, escrowId, reason)`: terminal-state
check, flip the escrow to `cancelled` with the reason (`reason || 'No
reason provided'`), and — only when the linked transaction exists as a
transaction record and is not already completed — flip it to
`cancelled` too.  A missing transaction is silently skipped. -/
def CancelEscrow (L : Ledger) (escrowId reason now : String) : EResult :=
  match getState L escrowId with
  | none => .err (.notFound escrowId) L
  | some (.escrow escrow) =>
      if escrow.status = "completed" ∨ escrow.status = "cancelled" then
        .err (.invalidState escrow.status) L
      else
        let escrow' :=
          { escrow with
              status := "cancelled"
              cancellationReason :=
                some (if reason = "" then "No reason provided" else reason)
              updatedAt := now }
        let L1 :=
          match getState L escrow.transactionId with
          | some (.txn transaction) =>
              if transaction.status = "completed" then L
              else
                putState L escrow.transactionId
                  (.txn { transaction with
                            status := "cancelled"
                            updatedAt := now })
          | _ => L
        .ok (putState L1 escrowId (.escrow escrow'))
  | some _ => .err (.typeMismatch escrowId) L

/-! ## Basic ledger lemmas -/

theorem getState_putState (L : Ledger) (k : String) (v : LedgerValue)
    (k' : String) :
    getState (putState L k v) k' = if k' = k then some v else getState L k' := by
  induction L with
  | nil => simp [putState, getState]
  | cons hd tl ih =>
      obtain ⟨k0, v0⟩ := hd
      by_cases h : k = k0
      · subst h
        simp only [putState, if_pos rfl, getState]
        by_cases h' : k' = k <;> simp [h']
      · simp only [putState, if_neg h, getState, ih]
        by_cases h1 : k' = k0
        · subst h1
          have hk : ¬ k' = k := fun hh => h hh.symm
          simp [hk]
        · simp [h1]

theorem getState_putState_self (L : Ledger) (k : String) (v : LedgerValue) :
    getState (putState L k v) k = some v := by
  simp [getState_putState]

theorem getState_putState_other (L : Ledger) (k : String) (v : LedgerValue)
    (k' : String) (h : k' ≠ k) :
    getState (putState L k v) k' = getState L k' := by
  simp [getState_putState, h]

/-! ## Sample records used in witnesses and counterexamples -/

/-- A concrete property record. -/
def sampleProp : Property :=
  { propertyId := "p1"
    address := "Str. Aviatorilor 1"
    ownerId := "alice"
    details := []
    status := "active"
    history := []
    createdAt := "t0"
    updatedAt := "t0" }

/-! ## C3: duplicate registration -/

/-- **C3, counterexample.**  The claim says `RegisterProperty` fails with
`AlreadyExistsError` whenever a property with the given id already
exists.  On a ledger that already binds `"p1"` to a property owned by
`"alice"`, registering `"p1"` again for `"bob"` does not fail: it
succeeds and silently replaces the record (the source performs no
existence check). -/
theorem registerProperty_overwrites_existing :
    getState [("p1", LedgerValue.prop sampleProp)] "p1" ≠ none ∧
    RegisterProperty [("p1", LedgerValue.prop sampleProp)] "p1"
        "Str. Unirii 2" "bob" [] "t1" =
      .ok [("p1", LedgerValue.prop
        { propertyId := "p1"
          address := "Str. Unirii 2"
          ownerId := "bob"
          details := []
          status := "active"
          history := []
          createdAt := "t1"
          updatedAt := "t1" })] :=
  ⟨by decide, by decide⟩

/-- **C3 (amended).**  `RegisterProperty(id, address, ownerId, details)`
never fails — there is no duplicate-id check: on every ledger it
succeeds, binding `id` to a fresh Property with the given fields, empty
history and status `"active"` (overwriting any record previously at
`id`) and leaving every other key unchanged. -/
theorem registerProperty_always_creates (L : Ledger)
    (propertyId address ownerId : String)
    (details : List (String × String)) (now : String) :
    ∃ L', RegisterProperty L propertyId address ownerId details now = .ok L' ∧
      getState L' propertyId = some (.prop
        { propertyId := propertyId
          address := address
          ownerId := ownerId
          details := details
          status := "active"
          history := []
          createdAt := now
          updatedAt := now }) ∧
      ∀ k, k ≠ propertyId → getState L' k = getState L k := by
  refine ⟨_, rfl, getState_putState_self .., ?_⟩
  intro k hk
  exact getState_putState_other L propertyId _ k hk

/-- **C3 (amended), witness.**  The amended statement instantiated on a
concrete occupied ledger. -/
theorem registerProperty_always_creates_witness :
    ∃ L', RegisterProperty [("p1", LedgerValue.prop sampleProp)] "p1"
        "Str. Unirii 2" "bob" [] "t1" = .ok L' ∧
      getState L' "p1" = some (.prop
        { propertyId := "p1"
          address := "Str. Unirii 2"
          ownerId := "bob"
          details := []
          status := "active"
          history := []
          createdAt := "t1"
          updatedAt := "t1" }) ∧
      ∀ k, k ≠ "p1" → getState L' k =
        getState [("p1", LedgerValue.prop sampleProp)] k :=
  registerProperty_always_creates _ "p1" "Str. Unirii 2" "bob" [] "t1"

/-! ## C1: CompleteEscrow -/

/-- A concrete pending transaction, linked to `sampleProp`. -/
def sampleTxn : Transaction :=
  { transactionId := "t1"
    propertyId := "p1"
    sellerId := "alice"
    buyerId := "bob"
    price := 120000
    paymentMethod := "bank"
    notes := ""
    status := "pending"
    cancellationReason := none
    createdAt := "t0"
    updatedAt := "t0" }

/-- A concrete fully-paid, fully-verified escrow in
`ready_for_completion`. -/
def readyEscrow : Escrow :=
  { escrowId := "e1"
    transactionId := "t1"
    propertyId := "p1"
    sellerId := "alice"
    buyerId := "bob"
    price := 120000
    conditions := [⟨"c1"⟩]
    status := "ready_for_completion"
    payments :=
      [{ paymentId := "pay1"
         amount := 120000
         paymentMethod := "bank"
         details := ""
         timestamp := "t2" }]
    documents := []
    conditions_met := [("c1", true)]
    verifications :=
      some [{ conditionId := "c1"
              verifierId := "notary"
              details := ""
              timestamp := "t3" }]
    cancellationReason := none
    createdAt := "t1"
    updatedAt := "t3" }

/-- A concrete ledger holding `sampleProp`, `sampleTxn` and
`readyEscrow`. -/
def sampleLedger : Ledger :=
  [("p1", .prop sampleProp), ("t1", .txn sampleTxn), ("e1", .escrow readyEscrow)]

/-- **C1.**  For every ledger holding an escrow `e` at `escrowId`:
`CompleteEscrow` (i) fails with `InvalidStateError` unless `e.status`
is `"ready_for_completion"`; (ii) fails with `OwnershipMismatchError`
when the re-read property's `ownerId` differs from `e.sellerId`; and
(iii) on success the property's `ownerId` becomes `e.buyerId` with
exactly one new history entry appended, the linked transaction's status
becomes `"completed"`, and the escrow's status becomes `"completed"`. -/
theorem completeEscrow_spec (L : Ledger) (escrowId now : String) (e : Escrow)
    (he : getState L escrowId = some (.escrow e)) :
    (e.status ≠ "ready_for_completion" →
      CompleteEscrow L escrowId now = .err (.invalidState e.status) L) ∧
    (∀ p, e.status = "ready_for_completion" →
      getState L e.propertyId = some (.prop p) →
      p.ownerId ≠ e.sellerId →
      CompleteEscrow L escrowId now =
        .err (.ownershipMismatch e.propertyId e.sellerId) L) ∧
    (∀ p t, e.status = "ready_for_completion" →
      getState L e.propertyId = some (.prop p) →
      p.ownerId = e.sellerId →
      getState L e.transactionId = some (.txn t) →
      ∃ L' p' t' e' entry,
        CompleteEscrow L escrowId now = .ok L' ∧
        getState L' e.propertyId = some (.prop p') ∧
        p'.ownerId = e.buyerId ∧
        p'.history = p.history ++ [entry] ∧
        entry.toOwnerId = e.buyerId ∧
        getState L' e.transactionId = some (.txn t') ∧
        t'.status = "completed" ∧
        getState L' escrowId = some (.escrow e') ∧
        e'.status = "completed") := by
  refine ⟨?_, ?_, ?_⟩
  · intro hs
    simp only [CompleteEscrow, he]
    rw [if_neg hs]
  · intro p hs hp hop
    simp only [CompleteEscrow, he, hp]
    rw [if_pos hs, if_neg hop]
  · intro p t hs hp hop ht
    have hpe : e.propertyId ≠ escrowId := by
      intro hh
      rw [hh, he] at hp
      simp at hp
    have hte : e.transactionId ≠ escrowId := by
      intro hh
      rw [hh, he] at ht
      simp at ht
    have hpt : e.propertyId ≠ e.transactionId := by
      intro hh
      rw [hh, ht] at hp
      simp at hp
    simp only [CompleteEscrow, he, hp, ht]
    rw [if_pos hs, if_pos hop]
    refine ⟨_,
      { p with
          history := p.history ++
            [{ type := "transfer"
               transactionId := some e.transactionId
               escrowId := some e.escrowId
               fromOwnerId := e.sellerId
               toOwnerId := e.buyerId
               price := some e.price
               paymentMethod := none
               details := none
               timestamp := now }]
          ownerId := e.buyerId
          updatedAt := now },
      { t with status := "completed", updatedAt := now },
      { e with status := "completed", updatedAt := now },
      { type := "transfer"
        transactionId := some e.transactionId
        escrowId := some e.escrowId
        fromOwnerId := e.sellerId
        toOwnerId := e.buyerId
        price := some e.price
        paymentMethod := none
        details := none
        timestamp := now },
      rfl, ?_, rfl, rfl, rfl, ?_, rfl, ?_, rfl⟩
    · rw [getState_putState_other _ _ _ _ hpe,
        getState_putState_other _ _ _ _ hpt, getState_putState_self]
    · rw [getState_putState_other _ _ _ _ hte, getState_putState_self]
    · rw [getState_putState_self]

/-- **C1, witness.**  The success branch of `completeEscrow_spec`
instantiated on the concrete `sampleLedger`. -/
theorem completeEscrow_spec_witness :
    ∃ L' p' t' e' entry,
      CompleteEscrow sampleLedger "e1" "t9" = .ok L' ∧
      getState L' "p1" = some (.prop p') ∧
      p'.ownerId = "bob" ∧
      p'.history = sampleProp.history ++ [entry] ∧
      entry.toOwnerId = "bob" ∧
      getState L' "t1" = some (.txn t') ∧
      t'.status = "completed" ∧
      getState L' "e1" = some (.escrow e') ∧
      e'.status = "completed" :=
  (completeEscrow_spec sampleLedger "e1" "t9" readyEscrow (by decide)).2.2
    sampleProp sampleTxn rfl (by decide) rfl (by decide)

/-! ## C4 / C5: MarkConditionMet and AddPayment -/

theorem getKey_setKey_self {α : Type} (m : List (String × α)) (k : String)
    (v : α) : getKey (setKey m k v) k = some v := by
  induction m with
  | nil => simp [setKey, getKey]
  | cons hd tl ih =>
      obtain ⟨k0, v0⟩ := hd
      by_cases h : k = k0
      · subst h
        simp [setKey, getKey]
      · simp [setKey, getKey, h, ih]

theorem totalPaid_append (ps : List Payment) (p : Payment) :
    totalPaid (ps ++ [p]) = totalPaid ps + p.amount := by
  unfold totalPaid
  rw [List.foldl_append]
  rfl

/-- **C5.**  For every ledger holding an escrow `e` at `escrowId`:
`AddPayment` fails with `InvalidStateError` unless `e.status` is
`"created"` or `"in_progress"`; on success it appends exactly the given
payment, sets the status to `"in_progress"` exactly when the old status
was `"created"` and the cumulative total after the append is positive
(and otherwise leaves the status unchanged), and never produces the
status `"ready_for_completion"`. -/
theorem addPayment_spec (L : Ledger) (escrowId paymentId : String)
    (amount : ℚ) (method pdetails now : String) (e : Escrow)
    (he : getState L escrowId = some (.escrow e)) :
    (¬ (e.status = "created" ∨ e.status = "in_progress") →
      AddPayment L escrowId paymentId amount method pdetails now =
        .err (.invalidState e.status) L) ∧
    ((e.status = "created" ∨ e.status = "in_progress") →
      ∃ L' e',
        AddPayment L escrowId paymentId amount method pdetails now = .ok L' ∧
        getState L' escrowId = some (.escrow e') ∧
        e'.payments = e.payments ++
          [{ paymentId := paymentId
             amount := amount
             paymentMethod := method
             details := pdetails
             timestamp := now }] ∧
        e'.status =
          (if e.status = "created" ∧ 0 < totalPaid e'.payments
           then "in_progress" else e.status) ∧
        e'.status ≠ "ready_for_completion") := by
  refine ⟨?_, ?_⟩
  · intro hs
    simp only [AddPayment, he]
    rw [if_neg hs]
  · intro hs
    simp only [AddPayment, he]
    rw [if_pos hs]
    split
    next hc =>
      have hc' : e.status = "created" ∧
          0 < totalPaid (e.payments ++
            [{ paymentId := paymentId
               amount := amount
               paymentMethod := method
               details := pdetails
               timestamp := now }]) := hc
      refine ⟨_, _, rfl, getState_putState_self .., rfl, ?_, ?_⟩
      · rw [if_pos hc']
      · show ("in_progress" : String) ≠ "ready_for_completion"
        decide
    next hc =>
      have hc' : ¬ (e.status = "created" ∧
          0 < totalPaid (e.payments ++
            [{ paymentId := paymentId
               amount := amount
               paymentMethod := method
               details := pdetails
               timestamp := now }])) := hc
      refine ⟨_, _, rfl, getState_putState_self .., rfl, ?_, ?_⟩
      · rw [if_neg hc']
      · show e.status ≠ "ready_for_completion"
        rcases hs with h1 | h1 <;> rw [h1] <;> decide

/-- A concrete escrow that is `in_progress`, 70000 of 120000 paid, with
its single declared condition already met. -/
def midEscrow : Escrow :=
  { escrowId := "e2"
    transactionId := "t1"
    propertyId := "p1"
    sellerId := "alice"
    buyerId := "bob"
    price := 120000
    conditions := [⟨"c1"⟩]
    status := "in_progress"
    payments :=
      [{ paymentId := "pay1"
         amount := 70000
         paymentMethod := "bank"
         details := ""
         timestamp := "t2" }]
    documents := []
    conditions_met := [("c1", true)]
    verifications := none
    cancellationReason := none
    createdAt := "t1"
    updatedAt := "t2" }

/-- A ledger holding only `midEscrow`. -/
def midLedger : Ledger := [("e2", .escrow midEscrow)]

/-- **C5, witness.**  `addPayment_spec` instantiated on `midEscrow`:
adding the final 50000 of the 120000 price — with the only condition
already met — still does not advance the status to
`ready_for_completion`. -/
theorem addPayment_spec_witness :
    ∃ L' e',
      AddPayment midLedger "e2" "pay2" 50000 "bank" "" "t3" = .ok L' ∧
      getState L' "e2" = some (.escrow e') ∧
      e'.payments = midEscrow.payments ++
        [{ paymentId := "pay2"
           amount := 50000
           paymentMethod := "bank"
           details := ""
           timestamp := "t3" }] ∧
      e'.status =
        (if midEscrow.status = "created" ∧ 0 < totalPaid e'.payments
         then "in_progress" else midEscrow.status) ∧
      e'.status ≠ "ready_for_completion" :=
  (addPayment_spec midLedger "e2" "pay2" 50000 "bank" "" "t3" midEscrow
    (by decide)).2 (Or.inr rfl)

/-- **C4.**  For every ledger holding an escrow `e` at `escrowId`:
`MarkConditionMet` fails with `InvalidStateError` unless `e.status` is
`"created"` or `"in_progress"`, fails with `UnknownConditionError` if
`conditionId` is not among the declared conditions (the keys of
`conditions_met`, initialised at creation), and otherwise sets the
condition's flag to `true`, appends a verification record, and ends with
status `"ready_for_completion"` exactly when every declared condition is
then met and `|totalPaid - price| < 1/100`. -/
theorem markConditionMet_spec (L : Ledger)
    (escrowId conditionId verifierId vdetails now : String) (e : Escrow)
    (he : getState L escrowId = some (.escrow e)) :
    (¬ (e.status = "created" ∨ e.status = "in_progress") →
      MarkConditionMet L escrowId conditionId verifierId vdetails now =
        .err (.invalidState e.status) L) ∧
    ((e.status = "created" ∨ e.status = "in_progress") →
      hasKey e.conditions_met conditionId = false →
      MarkConditionMet L escrowId conditionId verifierId vdetails now =
        .err (.unknownCondition conditionId escrowId) L) ∧
    ((e.status = "created" ∨ e.status = "in_progress") →
      hasKey e.conditions_met conditionId = true →
      ∃ L' e',
        MarkConditionMet L escrowId conditionId verifierId vdetails now =
          .ok L' ∧
        getState L' escrowId = some (.escrow e') ∧
        e'.conditions_met = setKey e.conditions_met conditionId true ∧
        getKey e'.conditions_met conditionId = some true ∧
        e'.verifications = some (e.verifications.getD [] ++
          [{ conditionId := conditionId
             verifierId := verifierId
             details := vdetails
             timestamp := now }]) ∧
        e'.payments = e.payments ∧
        (e'.status = "ready_for_completion" ↔
          (e'.conditions_met.all (fun kv => kv.2) = true ∧
            |totalPaid e.payments - e.price| < 1 / 100))) := by
  refine ⟨?_, ?_, ?_⟩
  · intro hs
    simp only [MarkConditionMet, he]
    rw [if_neg hs]
  · intro hs hk
    simp only [MarkConditionMet, he]
    rw [if_pos hs, if_neg (by simp [hk])]
  · intro hs hk
    simp only [MarkConditionMet, he]
    rw [if_pos hs, if_pos hk]
    split
    next hc =>
      have hc' : (setKey e.conditions_met conditionId true).all
            (fun kv => kv.2) = true ∧
          |totalPaid e.payments - e.price| < 1 / 100 := ⟨hc.1, hc.2⟩
      refine ⟨_, _, rfl, getState_putState_self .., rfl,
        getKey_setKey_self .., rfl, rfl, ?_⟩
      constructor
      · intro _
        exact hc'
      · intro _
        rfl
    next hc =>
      have hc' : ¬ ((setKey e.conditions_met conditionId true).all
            (fun kv => kv.2) = true ∧
          |totalPaid e.payments - e.price| < 1 / 100) := by
        intro hcon
        exact hc ⟨hcon.1, hcon.2⟩
      refine ⟨_, _, rfl, getState_putState_self .., rfl,
        getKey_setKey_self .., rfl, rfl, ?_⟩
      constructor
      · intro h
        exfalso
        have h2 : e.status = "ready_for_completion" := h
        rcases hs with h1 | h1 <;> rw [h1] at h2 <;> exact absurd h2 (by decide)
      · intro h
        exact absurd h hc'

/-- A concrete escrow that is fully paid but whose single condition is
still unmet. -/
def unmetEscrow : Escrow :=
  { escrowId := "e3"
    transactionId := "t1"
    propertyId := "p1"
    sellerId := "alice"
    buyerId := "bob"
    price := 120000
    conditions := [⟨"c1"⟩]
    status := "in_progress"
    payments :=
      [{ paymentId := "pay1"
         amount := 70000
         paymentMethod := "bank"
         details := ""
         timestamp := "t2" },
       { paymentId := "pay2"
         amount := 50000
         paymentMethod := "bank"
         details := ""
         timestamp := "t3" }]
    documents := []
    conditions_met := [("c1", false)]
    verifications := none
    cancellationReason := none
    createdAt := "t1"
    updatedAt := "t3" }

/-- A ledger holding only `unmetEscrow`. -/
def unmetLedger : Ledger := [("e3", .escrow unmetEscrow)]

/-- **C4, witness.**  `markConditionMet_spec` instantiated on
`unmetEscrow`: marking the last open condition of a fully-paid escrow
flags it, appends a verification, and the status-advance biconditional
holds. -/
theorem markConditionMet_spec_witness :
    ∃ L' e',
      MarkConditionMet unmetLedger "e3" "c1" "notary" "" "t4" = .ok L' ∧
      getState L' "e3" = some (.escrow e') ∧
      e'.conditions_met = setKey unmetEscrow.conditions_met "c1" true ∧
      getKey e'.conditions_met "c1" = some true ∧
      e'.verifications = some (unmetEscrow.verifications.getD [] ++
        [{ conditionId := "c1"
           verifierId := "notary"
           details := ""
           timestamp := "t4" }]) ∧
      e'.payments = unmetEscrow.payments ∧
      (e'.status = "ready_for_completion" ↔
        (e'.conditions_met.all (fun kv => kv.2) = true ∧
          |totalPaid unmetEscrow.payments - unmetEscrow.price| < 1 / 100)) :=
  (markConditionMet_spec unmetLedger "e3" "c1" "notary" "" "t4" unmetEscrow
    (by decide)).2.2 (Or.inr rfl) (by decide)

/-! ## C7: terminal escrows are immutable -/

/-- **C7.**  For every escrow in a terminal state (`"completed"` or
`"cancelled"`), each of the five mutating operations — `AddPayment`,
`AddDocument`, `MarkConditionMet`, `CompleteEscrow`, `CancelEscrow` —
fails with `InvalidStateError` and leaves the ledger untouched; in
particular cancelling an already-cancelled escrow fails rather than
silently succeeding. -/
theorem terminal_escrow_immutable (L : Ledger) (escrowId : String)
    (e : Escrow) (he : getState L escrowId = some (.escrow e))
    (hs : e.status = "completed" ∨ e.status = "cancelled") :
    (∀ paymentId amount method pdetails now,
      AddPayment L escrowId paymentId amount method pdetails now =
        .err (.invalidState e.status) L) ∧
    (∀ documentId dtype dhash dmeta now,
      AddDocument L escrowId documentId dtype dhash dmeta now =
        .err (.invalidState e.status) L) ∧
    (∀ conditionId verifierId vdetails now,
      MarkConditionMet L escrowId conditionId verifierId vdetails now =
        .err (.invalidState e.status) L) ∧
    (∀ now,
      CompleteEscrow L escrowId now = .err (.invalidState e.status) L) ∧
    (∀ reason now,
      CancelEscrow L escrowId reason now = .err (.invalidState e.status) L) := by
  have hno : ¬ (e.status = "created" ∨ e.status = "in_progress") := by
    rcases hs with h | h <;> rw [h] <;> decide
  have hnr : e.status ≠ "ready_for_completion" := by
    rcases hs with h | h <;> rw [h] <;> decide
  refine ⟨?_, ?_, ?_, ?_, ?_⟩
  · intro paymentId amount method pdetails now
    simp only [AddPayment, he]
    rw [if_neg hno]
  · intro documentId dtype dhash dmeta now
    simp only [AddDocument, he]
    rw [if_neg hno]
  · intro conditionId verifierId vdetails now
    simp only [MarkConditionMet, he]
    rw [if_neg hno]
  · intro now
    simp only [CompleteEscrow, he]
    rw [if_neg hnr]
  · intro reason now
    simp only [CancelEscrow, he]
    rw [if_pos hs]

/-- A concrete escrow that was already cancelled. -/
def cancelledEscrow : Escrow :=
  { escrowId := "e5"
    transactionId := "t1"
    propertyId := "p1"
    sellerId := "alice"
    buyerId := "bob"
    price := 120000
    conditions := [⟨"c1"⟩]
    status := "cancelled"
    payments := []
    documents := []
    conditions_met := [("c1", false)]
    verifications := none
    cancellationReason := some "buyer withdrew"
    createdAt := "t1"
    updatedAt := "t4" }

/-- A ledger holding only `cancelledEscrow`. -/
def cancelledLedger : Ledger := [("e5", .escrow cancelledEscrow)]

/-- **C7, witness.**  `terminal_escrow_immutable` instantiated on
`cancelledEscrow`; the last conjunct is the repeated-cancellation
case. -/
theorem terminal_escrow_immutable_witness :
    (∀ paymentId amount method pdetails now,
      AddPayment cancelledLedger "e5" paymentId amount method pdetails now =
        .err (.invalidState cancelledEscrow.status) cancelledLedger) ∧
    (∀ documentId dtype dhash dmeta now,
      AddDocument cancelledLedger "e5" documentId dtype dhash dmeta now =
        .err (.invalidState cancelledEscrow.status) cancelledLedger) ∧
    (∀ conditionId verifierId vdetails now,
      MarkConditionMet cancelledLedger "e5" conditionId verifierId vdetails
          now =
        .err (.invalidState cancelledEscrow.status) cancelledLedger) ∧
    (∀ now,
      CompleteEscrow cancelledLedger "e5" now =
        .err (.invalidState cancelledEscrow.status) cancelledLedger) ∧
    (∀ reason now,
      CancelEscrow cancelledLedger "e5" reason now =
        .err (.invalidState cancelledEscrow.status) cancelledLedger) :=
  terminal_escrow_immutable cancelledLedger "e5" cancelledEscrow (by decide)
    (Or.inr rfl)

/-! ## C10: cancellation with a dangling transaction reference -/

/-- **C10.**  If a non-terminal escrow's linked `transactionId` is
absent from the ledger, `CancelEscrow` still succeeds — no
`NotFoundError` — flipping the escrow to `"cancelled"` with the given
reason, writing no transaction record (the linked key stays absent) and
touching no other key. -/
theorem cancelEscrow_missing_transaction (L : Ledger)
    (escrowId reason now : String) (e : Escrow)
    (he : getState L escrowId = some (.escrow e))
    (hs : ¬ (e.status = "completed" ∨ e.status = "cancelled"))
    (ht : getState L e.transactionId = none)
    (hr : reason ≠ "") :
    ∃ L',
      CancelEscrow L escrowId reason now = .ok L' ∧
      getState L' escrowId = some (.escrow
        { e with
            status := "cancelled"
            cancellationReason := some reason
            updatedAt := now }) ∧
      getState L' e.transactionId = none ∧
      ∀ k, k ≠ escrowId → getState L' k = getState L k := by
  have hte : e.transactionId ≠ escrowId := by
    intro hh
    rw [hh, he] at ht
    exact Option.noConfusion ht
  simp only [CancelEscrow, he, ht]
  rw [if_neg hs, if_neg hr]
  refine ⟨_, rfl, getState_putState_self .., ?_, ?_⟩
  · rw [getState_putState_other _ _ _ _ hte, ht]
  · intro k hk
    exact getState_putState_other _ _ _ _ hk

/-- A concrete in-progress escrow whose linked transaction id `"tX"` is
absent from the ledger. -/
def danglingEscrow : Escrow :=
  { escrowId := "e6"
    transactionId := "tX"
    propertyId := "p1"
    sellerId := "alice"
    buyerId := "bob"
    price := 120000
    conditions := [⟨"c1"⟩]
    status := "in_progress"
    payments := []
    documents := []
    conditions_met := [("c1", false)]
    verifications := none
    cancellationReason := none
    createdAt := "t1"
    updatedAt := "t2" }

/-- A ledger holding `danglingEscrow` and nothing at `"tX"`. -/
def danglingLedger : Ledger := [("e6", .escrow danglingEscrow)]

/-- **C10, witness.**  `cancelEscrow_missing_transaction` instantiated
on `danglingEscrow`. -/
theorem cancelEscrow_missing_transaction_witness :
    ∃ L',
      CancelEscrow danglingLedger "e6" "deal fell through" "t5" = .ok L' ∧
      getState L' "e6" = some (.escrow
        { danglingEscrow with
            status := "cancelled"
            cancellationReason := some "deal fell through"
            updatedAt := "t5" }) ∧
      getState L' "tX" = none ∧
      ∀ k, k ≠ "e6" → getState L' k = getState danglingLedger k :=
  cancelEscrow_missing_transaction danglingLedger "e6" "deal fell through"
    "t5" danglingEscrow (by decide) (by decide) (by decide) (by decide)

/-! ## C2: failing operations persist nothing -/

/-- **C2.**  Whenever any of the six escrow-contract operations fails,
the world state it leaves behind (the ledger carried by the error
outcome, i.e. the state as of the throw site) is exactly the input
ledger: a failing operation persists nothing.  In particular a failing
`CompleteEscrow` leaves the property, the transaction and the escrow
untouched, and a failing `CancelEscrow` writes nothing. -/
theorem escrow_ops_atomic_on_failure (L : Ledger) :
    (∀ eid tid pid sid bid price conds now er L',
      CreateEscrow L eid tid pid sid bid price conds now = .err er L' →
      L' = L) ∧
    (∀ eid payid amt method pdetails now er L',
      AddPayment L eid payid amt method pdetails now = .err er L' →
      L' = L) ∧
    (∀ eid did dtype dhash dmeta now er L',
      AddDocument L eid did dtype dhash dmeta now = .err er L' → L' = L) ∧
    (∀ eid cid vid vdetails now er L',
      MarkConditionMet L eid cid vid vdetails now = .err er L' → L' = L) ∧
    (∀ eid now er L',
      CompleteEscrow L eid now = .err er L' → L' = L) ∧
    (∀ eid reason now er L',
      CancelEscrow L eid reason now = .err er L' → L' = L) := by
  refine ⟨?_, ?_, ?_, ?_, ?_, ?_⟩
  · intro eid tid pid sid bid price conds now er L' h
    unfold CreateEscrow at h
    repeat' split at h
    all_goals simp_all
  · intro eid payid amt method pdetails now er L' h
    unfold AddPayment at h
    repeat' split at h
    all_goals simp_all
  · intro eid did dtype dhash dmeta now er L' h
    unfold AddDocument at h
    repeat' split at h
    all_goals simp_all
  · intro eid cid vid vdetails now er L' h
    unfold MarkConditionMet at h
    repeat' split at h
    all_goals simp_all
  · intro eid now er L' h
    unfold CompleteEscrow at h
    repeat' split at h
    all_goals simp_all
  · intro eid reason now er L' h
    unfold CancelEscrow at h
    repeat' split at h
    all_goals simp_all

/-- **C2, witness.**  Each escrow operation instantiated on a concrete
failing call (unknown escrow / not-ready escrow / terminal escrow), with
the preserved ledger exhibited. -/
theorem escrow_ops_atomic_on_failure_witness :
    (CreateEscrow midLedger "e9" "tZ" "pZ" "s" "b" 1 [] "t0" =
        .err (.notFound "tZ") midLedger ∧ (midLedger = midLedger)) ∧
    (AddPayment cancelledLedger "e5" "pay" 1 "bank" "" "t0" =
        .err (.invalidState "cancelled") cancelledLedger ∧
      (cancelledLedger = cancelledLedger)) ∧
    (AddDocument cancelledLedger "e5" "d" "deed" "h" "" "t0" =
        .err (.invalidState "cancelled") cancelledLedger ∧
      (cancelledLedger = cancelledLedger)) ∧
    (MarkConditionMet cancelledLedger "e5" "c1" "v" "" "t0" =
        .err (.invalidState "cancelled") cancelledLedger ∧
      (cancelledLedger = cancelledLedger)) ∧
    (CompleteEscrow midLedger "e2" "t0" =
        .err (.invalidState "in_progress") midLedger ∧
      (midLedger = midLedger)) ∧
    (CancelEscrow cancelledLedger "e5" "again" "t0" =
        .err (.invalidState "cancelled") cancelledLedger ∧
      (cancelledLedger = cancelledLedger)) :=
  ⟨⟨by decide, (escrow_ops_atomic_on_failure midLedger).1 "e9" "tZ" "pZ" "s"
      "b" 1 [] "t0" (.notFound "tZ") midLedger (by decide)⟩,
   ⟨by decide, (escrow_ops_atomic_on_failure cancelledLedger).2.1 "e5" "pay"
      1 "bank" "" "t0" (.invalidState "cancelled") cancelledLedger
      (by decide)⟩,
   ⟨by decide, (escrow_ops_atomic_on_failure cancelledLedger).2.2.1 "e5" "d"
      "deed" "h" "" "t0" (.invalidState "cancelled") cancelledLedger
      (by decide)⟩,
   ⟨by decide, (escrow_ops_atomic_on_failure cancelledLedger).2.2.2.1 "e5"
      "c1" "v" "" "t0" (.invalidState "cancelled") cancelledLedger
      (by decide)⟩,
   ⟨by decide, (escrow_ops_atomic_on_failure midLedger).2.2.2.2.1 "e2" "t0"
      (.invalidState "in_progress") midLedger (by decide)⟩,
   ⟨by decide, (escrow_ops_atomic_on_failure cancelledLedger).2.2.2.2.2 "e5"
      "again" "t0" (.invalidState "cancelled") cancelledLedger (by decide)⟩⟩

/-! ## Reachability: committed invocations as a step relation -/

/-- One committed chaincode invocation: `Step L L'` holds when some
operation of the three contracts, run on ledger `L` with some arguments,
succeeds and commits `L'`. -/
inductive Step : Ledger → Ledger → Prop where
  | registerProperty {L L' : Ledger} (pid addr owner : String)
      (details : List (String × String)) (now : String)
      (h : RegisterProperty L pid addr owner details now = .ok L') :
      Step L L'
  | updateProperty {L L' : Ledger} (pid : String)
      (newDetails : List (String × String)) (now : String)
      (h : UpdateProperty L pid newDetails now = .ok L') : Step L L'
  | transferProperty {L L' : Ledger} (pid curOwner newOwner tdetails now : String)
      (h : TransferProperty L pid curOwner newOwner tdetails now = .ok L') :
      Step L L'
  | createTransaction {L L' : Ledger} (tid pid sid bid : String) (price : ℚ)
      (method notes now : String)
      (h : CreateTransaction L tid pid sid bid price method notes now = .ok L') :
      Step L L'
  | completeTransaction {L L' : Ledger} (tid now : String)
      (h : CompleteTransaction L tid now = .ok L') : Step L L'
  | cancelTransaction {L L' : Ledger} (tid reason now : String)
      (h : CancelTransaction L tid reason now = .ok L') : Step L L'
  | createEscrow {L L' : Ledger} (eid tid pid sid bid : String) (price : ℚ)
      (conds : List Condition) (now : String)
      (h : CreateEscrow L eid tid pid sid bid price conds now = .ok L') :
      Step L L'
  | addPayment {L L' : Ledger} (eid payid : String) (amt : ℚ)
      (method pdetails now : String)
      (h : AddPayment L eid payid amt method pdetails now = .ok L') : Step L L'
  | addDocument {L L' : Ledger} (eid did dtype dhash dmeta now : String)
      (h : AddDocument L eid did dtype dhash dmeta now = .ok L') : Step L L'
  | markConditionMet {L L' : Ledger} (eid cid vid vdetails now : String)
      (h : MarkConditionMet L eid cid vid vdetails now = .ok L') : Step L L'
  | completeEscrow {L L' : Ledger} (eid now : String)
      (h : CompleteEscrow L eid now = .ok L') : Step L L'
  | cancelEscrow {L L' : Ledger} (eid reason now : String)
      (h : CancelEscrow L eid reason now = .ok L') : Step L L'

/-- `Reachable L L'`: ledger `L'` arises from `L` by some finite sequence
of committed invocations. -/
abbrev Reachable : Ledger → Ledger → Prop := Relation.ReflTransGen Step

/-! ## C6: the paid-in-full invariant -/

/-- The paid-in-full property of one escrow record: when its status is
`ready_for_completion` or `completed`, the payments sum to the price
within the 0.01 tolerance. -/
def EscrowPaid (e : Escrow) : Prop :=
  e.status = "ready_for_completion" ∨ e.status = "completed" →
    |totalPaid e.payments - e.price| < 1 / 100

/-- The paid-in-full invariant over a whole ledger. -/
def LedgerEscrowInv (L : Ledger) : Prop :=
  ∀ k e, getState L k = some (.escrow e) → EscrowPaid e

theorem ledgerEscrowInv_putState {L : Ledger} (k : String) (v : LedgerValue)
    (hL : LedgerEscrowInv L) (hv : ∀ e, v = .escrow e → EscrowPaid e) :
    LedgerEscrowInv (putState L k v) := by
  intro k' e' h
  rw [getState_putState] at h
  split at h
  · exact hv e' (Option.some.inj h)
  · exact hL k' e' h

theorem step_preserves_escrowInv {L L' : Ledger} (hs : Step L L')
    (hL : LedgerEscrowInv L) : LedgerEscrowInv L' := by
  cases hs with
  | registerProperty pid addr owner details now h =>
      unfold RegisterProperty at h
      injection h with h1
      subst h1
      exact ledgerEscrowInv_putState _ _ hL (fun e he => nomatch he)
  | updateProperty pid newDetails now h =>
      unfold UpdateProperty at h
      repeat' split at h
      all_goals first
        | exact (EResult.noConfusion h)
        | (injection h with h1; subst h1;
           exact ledgerEscrowInv_putState _ _ hL (fun e he => nomatch he))
  | transferProperty pid curOwner newOwner tdetails now h =>
      unfold TransferProperty at h
      repeat' split at h
      all_goals first
        | exact (EResult.noConfusion h)
        | (injection h with h1; subst h1;
           exact ledgerEscrowInv_putState _ _ hL (fun e he => nomatch he))
  | createTransaction tid pid sid bid price method notes now h =>
      unfold CreateTransaction at h
      repeat' split at h
      all_goals first
        | exact (EResult.noConfusion h)
        | (injection h with h1; subst h1;
           exact ledgerEscrowInv_putState _ _ hL (fun e he => nomatch he))
  | completeTransaction tid now h =>
      unfold CompleteTransaction at h
      repeat' split at h
      all_goals first
        | exact (EResult.noConfusion h)
        | (injection h with h1; subst h1;
           exact ledgerEscrowInv_putState _ _
             (ledgerEscrowInv_putState _ _ hL (fun e he => nomatch he))
             (fun e he => nomatch he))
  | cancelTransaction tid reason now h =>
      unfold CancelTransaction at h
      repeat' split at h
      all_goals first
        | exact (EResult.noConfusion h)
        | (injection h with h1; subst h1;
           exact ledgerEscrowInv_putState _ _ hL (fun e he => nomatch he))
  | createEscrow eid tid pid sid bid price conds now h =>
      unfold CreateEscrow at h
      repeat' split at h
      all_goals try exact (EResult.noConfusion h)
      injection h with h1
      subst h1
      refine ledgerEscrowInv_putState _ _ hL ?_
      intro e he
      injection he with h2
      subst h2
      intro hst
      rcases hst with h3 | h3 <;> simp at h3
  | addPayment eid payid amt method pdetails now h =>
      unfold AddPayment at h
      repeat' split at h
      all_goals try exact (EResult.noConfusion h)
      rename_i e0 heq hguard
      injection h with h1
      subst h1
      refine ledgerEscrowInv_putState _ _ hL ?_
      intro e he
      injection he with h2
      subst h2
      intro hst
      exfalso
      rcases hst with h3 | h3 <;> split at h3 <;>
        rcases hguard with h4 | h4 <;> simp [h4] at h3
  | addDocument eid did dtype dhash dmeta now h =>
      unfold AddDocument at h
      repeat' split at h
      all_goals try exact (EResult.noConfusion h)
      rename_i e0 heq hguard
      injection h with h1
      subst h1
      refine ledgerEscrowInv_putState _ _ hL ?_
      intro e he
      injection he with h2
      subst h2
      intro hst
      exfalso
      rcases hst with h3 | h3 <;> rcases hguard with h4 | h4 <;>
        simp [h4] at h3
  | markConditionMet eid cid vid vdetails now h =>
      unfold MarkConditionMet at h
      repeat' split at h
      all_goals try exact (EResult.noConfusion h)
      rename_i e0 heq hguard hkey
      injection h with h1
      subst h1
      refine ledgerEscrowInv_putState _ _ hL ?_
      intro e he
      injection he with h2
      subst h2
      intro hst
      rcases hst with h3 | h3 <;> split at h3 <;>
        first
        | (rename_i hc
           rw [if_pos hc]
           exact hc.2)
        | (exfalso
           rcases hguard with h4 | h4 <;> simp [h4] at h3)
  | completeEscrow eid now h =>
      unfold CompleteEscrow at h
      repeat' split at h
      all_goals try exact (EResult.noConfusion h)
      rename_i x1 e0 heq hready x2 p0 hp hown x3 t0 ht
      injection h with h1
      subst h1
      refine ledgerEscrowInv_putState _ _
        (ledgerEscrowInv_putState _ _
          (ledgerEscrowInv_putState _ _ hL (fun e he => nomatch he))
          (fun e he => nomatch he)) ?_
      intro e he
      injection he with h2
      subst h2
      intro _
      exact hL eid e0 heq (Or.inl hready)
  | cancelEscrow eid reason now h =>
      unfold CancelEscrow at h
      repeat' split at h
      all_goals try exact (EResult.noConfusion h)
      all_goals
        (injection h with h1; subst h1;
         refine ledgerEscrowInv_putState _ _ ?_ ?_)
      all_goals
        first
        | exact hL
        | exact ledgerEscrowInv_putState _ _ hL (fun e he => nomatch he)
        | (intro e he; injection he with h2; subst h2; intro hst;
           exfalso; rcases hst with h3 | h3 <;> simp at h3)

theorem reachable_preserves_escrowInv {L0 L : Ledger} (hr : Reachable L0 L)
    (h0 : LedgerEscrowInv L0) : LedgerEscrowInv L := by
  induction hr with
  | refl => exact h0
  | tail _ hstep ih => exact step_preserves_escrowInv hstep ih

/-- **C6.**  In every ledger reachable by committed invocations from a
ledger satisfying the paid-in-full invariant (e.g. one with no escrows
yet), every escrow whose status is `ready_for_completion` or
`completed` has payments summing to its price within the 0.01
tolerance. -/
theorem paidInFull_invariant (L0 L : Ledger) (h0 : LedgerEscrowInv L0)
    (hr : Reachable L0 L) (k : String) (e : Escrow)
    (he : getState L k = some (.escrow e))
    (hs : e.status = "ready_for_completion" ∨ e.status = "completed") :
    |totalPaid e.payments - e.price| < 1 / 100 :=
  reachable_preserves_escrowInv hr h0 k e he hs

/-- The escrow-free starting ledger of the concrete round-trip chain. -/
def baseLedger : Ledger := [("p1", .prop sampleProp), ("t1", .txn sampleTxn)]

/-- The escrow as created by `CreateEscrow` in the concrete chain. -/
def chainEscrow1 : Escrow :=
  { escrowId := "e1"
    transactionId := "t1"
    propertyId := "p1"
    sellerId := "alice"
    buyerId := "bob"
    price := 120000
    conditions := [⟨"c1"⟩]
    status := "created"
    payments := []
    documents := []
    conditions_met := [("c1", false)]
    verifications := none
    cancellationReason := none
    createdAt := "s1"
    updatedAt := "s1" }

/-- Ledger after `CreateEscrow`. -/
def chainLedger1 : Ledger :=
  [("p1", .prop sampleProp), ("t1", .txn sampleTxn),
   ("e1", .escrow chainEscrow1)]

/-- The full-price payment of the concrete chain. -/
def chainPayment : Payment :=
  { paymentId := "pay1"
    amount := 120000
    paymentMethod := "bank"
    details := ""
    timestamp := "s2" }

/-- The escrow after `AddPayment` of the full price. -/
def chainEscrow2 : Escrow :=
  { chainEscrow1 with
      status := "in_progress"
      payments := [chainPayment]
      updatedAt := "s2" }

/-- Ledger after `AddPayment`. -/
def chainLedger2 : Ledger :=
  [("p1", .prop sampleProp), ("t1", .txn sampleTxn),
   ("e1", .escrow chainEscrow2)]

/-- The escrow after `MarkConditionMet` on the last open condition:
fully paid and fully verified, hence `ready_for_completion`. -/
def chainEscrow3 : Escrow :=
  { chainEscrow2 with
      conditions_met := [("c1", true)]
      verifications :=
        some [{ conditionId := "c1"
                verifierId := "notary"
                details := ""
                timestamp := "s3" }]
      status := "ready_for_completion"
      updatedAt := "s3" }

/-- Ledger after `MarkConditionMet`. -/
def chainLedger3 : Ledger :=
  [("p1", .prop sampleProp), ("t1", .txn sampleTxn),
   ("e1", .escrow chainEscrow3)]

theorem baseLedger_escrowInv : LedgerEscrowInv baseLedger := by
  intro k e h
  simp only [baseLedger, getState] at h
  split at h
  · simp at h
  · split at h
    · simp at h
    · exact Option.noConfusion h

theorem chainStep1 :
    CreateEscrow baseLedger "e1" "t1" "p1" "alice" "bob" 120000 [⟨"c1"⟩]
      "s1" = .ok chainLedger1 := by
  have ht : getState baseLedger "t1" = some (.txn sampleTxn) := by decide
  have hp : getState baseLedger "p1" = some (.prop sampleProp) := by decide
  simp only [CreateEscrow, ht, hp]
  rw [if_pos (show sampleProp.ownerId = "alice" from rfl)]
  rfl

theorem chainStep2 :
    AddPayment chainLedger1 "e1" "pay1" 120000 "bank" "" "s2" =
      .ok chainLedger2 := by
  have he : getState chainLedger1 "e1" = some (.escrow chainEscrow1) := by
    decide
  simp only [AddPayment, he]
  rw [if_pos (show chainEscrow1.status = "created" ∨
      chainEscrow1.status = "in_progress" from Or.inl rfl)]
  rw [if_pos (show chainEscrow1.status = "created" ∧
      (0 : ℚ) < totalPaid (chainEscrow1.payments ++
        [{ paymentId := "pay1"
           amount := 120000
           paymentMethod := "bank"
           details := ""
           timestamp := "s2" }]) from
    ⟨rfl, by norm_num [totalPaid, chainEscrow1]⟩)]
  rfl

theorem chainStep3 :
    MarkConditionMet chainLedger2 "e1" "c1" "notary" "" "s3" =
      .ok chainLedger3 := by
  have he : getState chainLedger2 "e1" = some (.escrow chainEscrow2) := by
    decide
  simp only [MarkConditionMet, he]
  rw [if_pos (show chainEscrow2.status = "created" ∨
      chainEscrow2.status = "in_progress" from Or.inr rfl)]
  rw [if_pos (show hasKey chainEscrow2.conditions_met "c1" = true by decide)]
  rw [if_pos (show
      ((setKey chainEscrow2.conditions_met "c1" true).all
        (fun kv => kv.2) = true) ∧
      |totalPaid chainEscrow2.payments - chainEscrow2.price| < 1 / 100 from
    ⟨by decide,
     by norm_num [totalPaid, chainEscrow2, chainEscrow1, chainPayment]⟩)]
  rfl

theorem chain_reachable : Reachable baseLedger chainLedger3 :=
  Relation.ReflTransGen.tail
    (Relation.ReflTransGen.tail
      (Relation.ReflTransGen.single
        (Step.createEscrow "e1" "t1" "p1" "alice" "bob" 120000 [⟨"c1"⟩] "s1"
          chainStep1))
      (Step.addPayment "e1" "pay1" 120000 "bank" "" "s2" chainStep2))
    (Step.markConditionMet "e1" "c1" "notary" "" "s3" chainStep3)

/-- **C6, witness.**  The invariant evaluated at the end of the concrete
chain create → pay in full → mark the condition met, where the escrow is
`ready_for_completion`. -/
theorem paidInFull_invariant_witness :
    |totalPaid chainEscrow3.payments - chainEscrow3.price| < 1 / 100 :=
  paidInFull_invariant baseLedger chainLedger3 baseLedger_escrowInv
    chain_reachable "e1" chainEscrow3 (by decide) (Or.inl rfl)

/-! ## C8: ownership matches the history log -/

theorem getLast?_snoc {α : Type} (l : List α) (a : α) :
    (l ++ [a]).getLast? = some a := by
  rw [List.getLast?_append_cons]
  rfl

/-- The C8 invariant on one property record: the current owner is the
`toOwnerId` of the most recent history entry (vacuous when the history
is empty — the empty case is pinned down by the registration and
update clauses of the theorem below). -/
def OwnerMatchesHistory (p : Property) : Prop :=
  ∀ en, p.history.getLast? = some en → p.ownerId = en.toOwnerId

/-- The C8 invariant over a whole ledger. -/
def LedgerPropInv (L : Ledger) : Prop :=
  ∀ k p, getState L k = some (.prop p) → OwnerMatchesHistory p

theorem ledgerPropInv_putState {L : Ledger} (k : String) (v : LedgerValue)
    (hL : LedgerPropInv L) (hv : ∀ p, v = .prop p → OwnerMatchesHistory p) :
    LedgerPropInv (putState L k v) := by
  intro k' p' h
  rw [getState_putState] at h
  split at h
  · exact hv p' (Option.some.inj h)
  · exact hL k' p' h

theorem step_preserves_propInv {L L' : Ledger} (hs : Step L L')
    (hL : LedgerPropInv L) : LedgerPropInv L' := by
  cases hs with
  | registerProperty pid addr owner details now h =>
      unfold RegisterProperty at h
      injection h with h1
      subst h1
      refine ledgerPropInv_putState _ _ hL ?_
      intro p hp
      injection hp with h2
      subst h2
      intro en hen
      simp at hen
  | updateProperty pid newDetails now h =>
      unfold UpdateProperty at h
      repeat' split at h
      all_goals try exact (EResult.noConfusion h)
      rename_i p0 heq
      injection h with h1
      subst h1
      refine ledgerPropInv_putState _ _ hL ?_
      intro p hp
      injection hp with h2
      subst h2
      intro en hen
      exact hL pid p0 heq en hen
  | transferProperty pid curOwner newOwner tdetails now h =>
      unfold TransferProperty at h
      repeat' split at h
      all_goals try exact (EResult.noConfusion h)
      injection h with h1
      subst h1
      refine ledgerPropInv_putState _ _ hL ?_
      intro p hp
      injection hp with h2
      subst h2
      intro en hen
      simp only [getLast?_snoc] at hen
      injection hen with h3
      subst h3
      rfl
  | createTransaction tid pid sid bid price method notes now h =>
      unfold CreateTransaction at h
      repeat' split at h
      all_goals try exact (EResult.noConfusion h)
      injection h with h1
      subst h1
      exact ledgerPropInv_putState _ _ hL (fun p hp => nomatch hp)
  | completeTransaction tid now h =>
      unfold CompleteTransaction at h
      repeat' split at h
      all_goals try exact (EResult.noConfusion h)
      injection h with h1
      subst h1
      refine ledgerPropInv_putState _ _
        (ledgerPropInv_putState _ _ hL ?_) (fun p hp => nomatch hp)
      intro p hp
      injection hp with h2
      subst h2
      intro en hen
      simp only [getLast?_snoc] at hen
      injection hen with h3
      subst h3
      rfl
  | cancelTransaction tid reason now h =>
      unfold CancelTransaction at h
      repeat' split at h
      all_goals try exact (EResult.noConfusion h)
      all_goals
        (injection h with h1; subst h1;
         exact ledgerPropInv_putState _ _ hL (fun p hp => nomatch hp))
  | createEscrow eid tid pid sid bid price conds now h =>
      unfold CreateEscrow at h
      repeat' split at h
      all_goals try exact (EResult.noConfusion h)
      injection h with h1
      subst h1
      exact ledgerPropInv_putState _ _ hL (fun p hp => nomatch hp)
  | addPayment eid payid amt method pdetails now h =>
      unfold AddPayment at h
      repeat' split at h
      all_goals try exact (EResult.noConfusion h)
      injection h with h1
      subst h1
      exact ledgerPropInv_putState _ _ hL (fun p hp => nomatch hp)
  | addDocument eid did dtype dhash dmeta now h =>
      unfold AddDocument at h
      repeat' split at h
      all_goals try exact (EResult.noConfusion h)
      injection h with h1
      subst h1
      exact ledgerPropInv_putState _ _ hL (fun p hp => nomatch hp)
  | markConditionMet eid cid vid vdetails now h =>
      unfold MarkConditionMet at h
      repeat' split at h
      all_goals try exact (EResult.noConfusion h)
      injection h with h1
      subst h1
      exact ledgerPropInv_putState _ _ hL (fun p hp => nomatch hp)
  | completeEscrow eid now h =>
      unfold CompleteEscrow at h
      repeat' split at h
      all_goals try exact (EResult.noConfusion h)
      injection h with h1
      subst h1
      refine ledgerPropInv_putState _ _
        (ledgerPropInv_putState _ _
          (ledgerPropInv_putState _ _ hL ?_)
          (fun p hp => nomatch hp))
        (fun p hp => nomatch hp)
      intro p hp
      injection hp with h2
      subst h2
      intro en hen
      simp only [getLast?_snoc] at hen
      injection hen with h3
      subst h3
      rfl
  | cancelEscrow eid reason now h =>
      unfold CancelEscrow at h
      repeat' split at h
      all_goals try exact (EResult.noConfusion h)
      all_goals
        (injection h with h1; subst h1;
         refine ledgerPropInv_putState _ _ ?_ (fun p hp => nomatch hp))
      all_goals
        first
        | exact hL
        | exact ledgerPropInv_putState _ _ hL (fun p hp => nomatch hp)

theorem reachable_preserves_propInv {L0 L : Ledger} (hr : Reachable L0 L)
    (h0 : LedgerPropInv L0) : LedgerPropInv L := by
  induction hr with
  | refl => exact h0
  | tail _ hstep ih => exact step_preserves_propInv hstep ih

/-- **C8.**  (a) In every ledger reachable from one satisfying the
owner/history invariant, every property's `ownerId` equals the
`toOwnerId` of the most recent entry of its `history`, whenever the
history is non-empty; (b) `RegisterProperty` creates the property with
the registrant as `ownerId` and an empty history — so an empty-history
property carries its registrant as owner; and (c) `UpdateProperty`, the
only other operation that rewrites a property, changes neither
`ownerId` nor `history`. -/
theorem owner_matches_history :
    (∀ L0 L, LedgerPropInv L0 → Reachable L0 L →
      ∀ k p, getState L k = some (.prop p) →
      ∀ en, p.history.getLast? = some en → p.ownerId = en.toOwnerId) ∧
    (∀ L pid addr owner details now L',
      RegisterProperty L pid addr owner details now = .ok L' →
      ∃ p, getState L' pid = some (.prop p) ∧ p.ownerId = owner ∧
        p.history = []) ∧
    (∀ L pid newDetails now L' p,
      UpdateProperty L pid newDetails now = .ok L' →
      getState L pid = some (.prop p) →
      ∃ p', getState L' pid = some (.prop p') ∧ p'.ownerId = p.ownerId ∧
        p'.history = p.history) := by
  refine ⟨?_, ?_, ?_⟩
  · intro L0 L h0 hr k p hp en hen
    exact reachable_preserves_propInv hr h0 k p hp en hen
  · intro L pid addr owner details now L' h
    unfold RegisterProperty at h
    injection h with h1
    subst h1
    exact ⟨_, getState_putState_self .., rfl, rfl⟩
  · intro L pid newDetails now L' p h hp
    unfold UpdateProperty at h
    repeat' split at h
    all_goals try exact (EResult.noConfusion h)
    rename_i p0 heq
    rw [heq] at hp
    injection hp with hp1
    injection hp1 with hp2
    subst hp2
    injection h with h1
    subst h1
    exact ⟨_, getState_putState_self .., rfl, rfl⟩

/-- The single-property starting ledger of the transfer example. -/
def tpLedger0 : Ledger := [("p1", .prop sampleProp)]

/-- The history entry appended by the example `TransferProperty` call. -/
def tpEntry : HistoryEntry :=
  { type := "transfer"
    transactionId := none
    escrowId := none
    fromOwnerId := "alice"
    toOwnerId := "bob"
    price := none
    paymentMethod := none
    details := some "notarized"
    timestamp := "u1" }

/-- The property after the example transfer. -/
def tpProp1 : Property :=
  { sampleProp with
      history := [tpEntry]
      ownerId := "bob"
      updatedAt := "u1" }

/-- The ledger after the example transfer. -/
def tpLedger1 : Ledger := [("p1", .prop tpProp1)]

theorem tpLedger0_propInv : LedgerPropInv tpLedger0 := by
  intro k p h
  simp only [tpLedger0, getState] at h
  split at h
  · injection h with h1
    injection h1 with h2
    subst h2
    intro en hen
    simp [sampleProp] at hen
  · exact Option.noConfusion h

theorem tpTransfer :
    TransferProperty tpLedger0 "p1" "alice" "bob" "notarized" "u1" =
      .ok tpLedger1 := by decide

/-- **C8, witness.**  Clause (a) of `owner_matches_history` evaluated
after a concrete `TransferProperty`: the new owner `"bob"` is the
`toOwnerId` of the single (hence most recent) history entry. -/
theorem owner_matches_history_witness :
    tpProp1.ownerId = tpEntry.toOwnerId :=
  owner_matches_history.1 tpLedger0 tpLedger1 tpLedger0_propInv
    (Relation.ReflTransGen.single
      (Step.transferProperty "p1" "alice" "bob" "notarized" "u1" tpTransfer))
    "p1" tpProp1 (by decide) tpEntry (by decide)
